import Mathlib

/-!
Verification of the stock/ETF return-analytics backend (`app.py`).

The embedding models the `/api/stock-data` pipeline of `app.py`:

* dates are integers (days since 1970-01-01, matching the `YYYY-MM-DD`
  strings of the source, whose lexicographic order is date order);
* a fetched price table (`fdr.DataReader`) is a `List (Int × ℚ)` of
  `(date, close)` rows, in ascending date order; a fetch that raises is
  `Except.error ()`;
* a pandas `Series` of returns is a `List (Int × Option ℚ)`, where `none`
  models a `NaN` entry (the undefined first `pct_change` value);
* float arithmetic is modelled exactly over `ℚ`; `Series.round(2)` is
  modelled as decimal round-half-to-even (numpy rounding on exactly
  representable values);
* pandas `corr()` (`nancorr`, Pearson, `min_periods = 1`) computes, per
  column pair over pairwise-complete rows,
  `(n·Σxy − Σx·Σy) / sqrt((n·Σxx − (Σx)²) · (n·Σyy − (Σy)²))`
  and yields `NaN` when there are no complete rows or the radicand is `0`.
  The matrix entry is kept as the exact pair
  `(numerator, radicand) : Option (ℚ × ℚ)`; `corrVal` interprets it in `ℝ`.
-/

namespace StockApp

/-- A theme from the request body: `{name, codes}` (`app.py` lines 83–84). -/
structure Theme where
  name : String
  codes : List String
deriving DecidableEq

/-- The JSON body of `POST /api/stock-data` (`app.py` lines 67–71).
`none` models a missing (or `null`) field; `timeframe` defaults to `"D"`
via `data.get('timeframe', 'D')`. -/
structure Request where
  themes : List Theme
  startDate : Option Int
  endDate : Option Int
  timeframe : Option String
deriving DecidableEq

/-- The price data source `fdr.DataReader(code, start, end)`:
given a symbol code and a fetch range it returns the `(date, close)` rows,
or `Except.error ()` when the fetch raises (`app.py` line 92). -/
abbrev Fetcher := String → Int → Int → Except Unit (List (Int × ℚ))

/-- `Series.pct_change() * 100` on the rows after the first:
each entry is `(close[t] / close[t-1] - 1) * 100` (`app.py` lines 59, 99). -/
def pctChange100Go (prev : ℚ) : List (Int × ℚ) → List (Int × Option ℚ)
  | [] => []
  | (d, v) :: rest => (d, some ((v / prev - 1) * 100)) :: pctChange100Go v rest

/-- `price_df['Close'].pct_change() * 100`: the first row has no prior
observation, so its value is `NaN` (`none`); later rows are the lag-1
percent change (`app.py` lines 59, 99). -/
def pctChange100 : List (Int × ℚ) → List (Int × Option ℚ)
  | [] => []
  | (d, v) :: rest => (d, none) :: pctChange100Go v rest

/-- The `'W-FRI'` resampling bucket of a date: the Friday on or after it.
Day `0` (1970-01-01) is a Thursday, so Fridays are the days `≡ 1 (mod 7)`. -/
def weekFriKey (d : Int) : Int := d + (1 - d) % 7

/-- Civil-calendar `(year, month, day)` of an epoch day (standard
days-to-civil conversion; all intermediate divisions are on nonnegative
values, so truncating `Int` division agrees with floor division). -/
def civilFromDays (z0 : Int) : Int × Int × Int :=
  let z := z0 + 719468
  let era := (if 0 ≤ z then z else z - 146096) / 146097
  let doe := z - era * 146097
  let yoe := (doe - doe / 1460 + doe / 36524 - doe / 146096) / 365
  let y := yoe + era * 400
  let doy := doe - (365 * yoe + yoe / 4 - yoe / 100)
  let mp := (5 * doy + 2) / 153
  let d := doy - (153 * mp + 2) / 5 + 1
  let m := mp + (if mp < 3 then 3 else -9)
  (if m ≤ 2 then y + 1 else y, m, d)

/-- Epoch day of a civil-calendar date (inverse of `civilFromDays`). -/
def daysFromCivil (y m d : Int) : Int :=
  let y1 := if m ≤ 2 then y - 1 else y
  let era := (if 0 ≤ y1 then y1 else y1 - 399) / 400
  let yoe := y1 - era * 400
  let mp := if 2 < m then m - 3 else m + 9
  let doy := (153 * mp + 2) / 5 + d - 1
  let doe := yoe * 365 + yoe / 4 - yoe / 100 + doy
  era * 146097 + doe - 719468

/-- The `'M'` resampling bucket of a date: the last calendar day of its
month. -/
def monthEndKey (z : Int) : Int :=
  let c := civilFromDays z
  if c.2.1 = 12 then daysFromCivil (c.1 + 1) 1 1 - 1
  else daysFromCivil c.1 (c.2.1 + 1) 1 - 1

/-- Helper for `resampleLast`: groups the (date-ascending) remaining rows,
carrying the current bucket key and the last close seen in that bucket. -/
def resampleLastGo (key : Int → Int) (k : Int) (last : ℚ) :
    List (Int × ℚ) → List (Int × ℚ)
  | [] => [(k, last)]
  | (d, v) :: rest =>
    if key d = k then resampleLastGo key k v rest
    else (k, last) :: resampleLastGo key (key d) v rest

/-- `Series.resample(period).last()` on a date-ascending series: one row per
nonempty bucket, holding the last close observed in that bucket, indexed by
the bucket's period-end date (`app.py` line 62).  (Buckets with no data,
which pandas would emit as `NaN` rows, do not arise in any verified claim
and are omitted.) -/
def resampleLast (key : Int → Int) : List (Int × ℚ) → List (Int × ℚ)
  | [] => []
  | (d, v) :: rest => resampleLastGo key (key d) v rest

/-- `{'W': 'W-FRI', 'M': 'M'}.get(timeframe)` (`app.py` line 61), mapping
the timeframe to its bucket function; `none` for any other timeframe. -/
def resamplePeriod (tf : String) : Option (Int → Int) :=
  if tf = "W" then some weekFriKey
  else if tf = "M" then some monthEndKey
  else none

/-- `resample_and_calculate_returns(price_df, timeframe)` (`app.py` lines
57–63).  For `'D'` it is the lag-1 percent change of the daily closes; for
`'W'`/`'M'` the closes are first resampled to period-end buckets.  For any
other timeframe `resample_period` is `None` and `Series.resample(None)`
raises, modelled by `Except.error ()`. -/
def resample_and_calculate_returns (price_df : List (Int × ℚ))
    (timeframe : String) : Except Unit (List (Int × Option ℚ)) :=
  if timeframe = "D" then .ok (pctChange100 price_df)
  else
    match resamplePeriod timeframe with
    | none => .error ()
    | some key => .ok (pctChange100 (resampleLast key price_df))

/-- `Series.dropna()`: the rows whose value is not `NaN`. -/
def dropna (l : List (Int × Option ℚ)) : List (Int × ℚ) :=
  l.filterMap (fun e => e.2.map (fun v => (e.1, v)))

/-- Round-half-to-even to the nearest integer. -/
def roundHalfEven (x : ℚ) : Int :=
  let f := ⌊x⌋
  if x - f < 1 / 2 then f
  else if 1 / 2 < x - f then f + 1
  else if f % 2 = 0 then f else f + 1

/-- `Series.round(2)` on one value: round-half-to-even at two decimals. -/
def round2 (q : ℚ) : ℚ := (roundHalfEven (q * 100) : ℚ) / 100

/-- `Series.mean()` of the non-`NaN` values on one row (`skipna=True`). -/
def listMean (l : List ℚ) : ℚ := l.sum / (l.length : ℚ)

/-- Sorted duplicate-free insertion of a date into an index. -/
def insertDate (d : Int) : List Int → List Int
  | [] => [d]
  | x :: xs =>
    if d < x then d :: x :: xs
    else if d = x then x :: xs
    else x :: insertDate d xs

/-- The sorted union of the date indices of several series: the row index
of `pd.concat(series_list, axis=1)` (`app.py` line 110). -/
def datesUnion (ls : List (List (Int × Option ℚ))) : List Int :=
  ls.foldl (fun acc s => s.foldl (fun a e => insertDate e.1 a) acc) []

/-- The value of a series at a date (`none` when the date is absent —
after `pd.concat(..., axis=1)` such cells are `NaN`). -/
def seriesAt (s : List (Int × Option ℚ)) (d : Int) : Option ℚ :=
  match s.find? (fun e => e.1 == d) with
  | some e => e.2
  | none => none

/-- The member values present on a date: one per series that has a
non-`NaN` value there. -/
def valuesAt (ls : List (List (Int × Option ℚ))) (d : Int) : List ℚ :=
  ls.filterMap (fun s => seriesAt s d)

/-- `pd.concat(theme_period_returns_list, axis=1).mean(axis=1).dropna()`
(`app.py` lines 110–111): per date of the joint index, the mean of the
values present on that date; dates where no series has a value are dropped
(their row mean is `NaN`). -/
def themeAvg (ls : List (List (Int × Option ℚ))) : List (Int × ℚ) :=
  (datesUnion ls).filterMap (fun d =>
    if valuesAt ls d = [] then none else some (d, listMean (valuesAt ls d)))

/-- Value of a (fully defined) series at a date, for correlation. -/
def lookupQ (s : List (Int × ℚ)) (d : Int) : Option ℚ :=
  (s.find? (fun e => e.1 == d)).map Prod.snd

/-- The pairwise-complete dates of two columns: the dates of the first
that also carry a value in the second (the rows pandas `nancorr` keeps
for this column pair). -/
def commonDates (xs ys : List (Int × ℚ)) : List Int :=
  (xs.map Prod.fst).filter (fun d => (lookupQ ys d).isSome)

/-- A sum `Σ_d f(x_d, y_d)` over a date list, with `x`/`y` read from the
two columns. -/
def statSum (f : ℚ → ℚ → ℚ) (xs ys : List (Int × ℚ)) (ds : List Int) : ℚ :=
  (ds.map (fun d => f ((lookupQ xs d).getD 0) ((lookupQ ys d).getD 0))).sum

/-- `n·Σx² − (Σx)²` of the first column over the given dates (the `x`
factor of pandas `nancorr`'s radicand). -/
def dxTerm (xs ys : List (Int × ℚ)) (ds : List Int) : ℚ :=
  (ds.length : ℚ) * statSum (fun x _ => x * x) xs ys ds
    - statSum (fun x _ => x) xs ys ds * statSum (fun x _ => x) xs ys ds

/-- `n·Σy² − (Σy)²` of the second column over the given dates. -/
def dyTerm (xs ys : List (Int × ℚ)) (ds : List Int) : ℚ :=
  (ds.length : ℚ) * statSum (fun _ y => y * y) xs ys ds
    - statSum (fun _ y => y) xs ys ds * statSum (fun _ y => y) xs ys ds

/-- `n·Σxy − Σx·Σy` over the given dates (the numerator of pandas
`nancorr`). -/
def covTerm (xs ys : List (Int × ℚ)) (ds : List Int) : ℚ :=
  (ds.length : ℚ) * statSum (fun x y => x * y) xs ys ds
    - statSum (fun x _ => x) xs ys ds * statSum (fun _ y => y) xs ys ds

/-- One entry of `DataFrame.corr()` (pandas `nancorr`, Pearson,
`min_periods = 1`), kept exact: `none` is `NaN` (no pairwise-complete row,
or zero radicand); otherwise `some (numerator, radicand)` where the float
value is `numerator / sqrt radicand`. -/
def corrRaw (xs ys : List (Int × ℚ)) : Option (ℚ × ℚ) :=
  if commonDates xs ys = [] then none
  else if dxTerm xs ys (commonDates xs ys) * dyTerm xs ys (commonDates xs ys) = 0
    then none
  else some (covTerm xs ys (commonDates xs ys),
    dxTerm xs ys (commonDates xs ys) * dyTerm xs ys (commonDates xs ys))

/-- The real value of a correlation entry: `NaN` stays `none`; otherwise
`numerator / sqrt radicand` (only this interpretation needs `ℝ`; the
pipeline itself is exact). -/
noncomputable def corrVal : Option (ℚ × ℚ) → Option ℝ
  | none => none
  | some (c, d) => some ((c : ℝ) / Real.sqrt (d : ℝ))

/-- `correlation_matrix.to_dict(orient='index')` (`app.py` lines 116–118,
135): row per theme, cell per theme, each cell the pairwise Pearson entry
of the two columns. -/
def corrMatrix (cols : List (String × List (Int × ℚ))) :
    List (String × List (String × Option (ℚ × ℚ))) :=
  cols.map (fun p => (p.1, cols.map (fun q => (q.1, corrRaw p.2 q.2))))

/-- Cell lookup in the nested correlation dictionary: `matrix[a][b]`,
`none` when a key is absent. -/
def mlookup (m : List (String × List (String × Option (ℚ × ℚ))))
    (a b : String) : Option (Option (ℚ × ℚ)) :=
  (m.find? (fun r => r.1 == a)).bind
    (fun r => (r.2.find? (fun c => c.1 == b)).map Prod.snd)

/-- One row of `stock_level_returns` (`app.py` lines 100–104). -/
structure StockRow where
  date : Int
  stock_name : String
  value : ℚ
deriving DecidableEq

/-- One row of `themed_returns` (`app.py` lines 123–127). -/
structure ThemedRow where
  date : Int
  sector : String
  value : ℚ
deriving DecidableEq

/-- The success payload of `/api/stock-data` (`app.py` lines 132–136). -/
structure Response where
  themed_returns : List ThemedRow
  stock_level_returns : List StockRow
  correlation_matrix : List (String × List (String × Option (ℚ × ℚ)))
deriving DecidableEq

/-- The two error responses of the handler: `400 "필수 파라미터가
누락되었습니다."` (`app.py` line 74) and `500 "데이터를 계산할 수
없습니다."` (`app.py` line 114). -/
inductive ApiError where
  | missingParams
  | cannotCompute
deriving DecidableEq

/-- The HTTP status of each error response. -/
def ApiError.status : ApiError → Nat
  | .missingParams => 400
  | .cannotCompute => 500

/-- Display-name resolution against `ALL_STOCKS_LIST` (`app.py` lines
89–90): the `Name` of the first entry whose `Code` matches, else the raw
code. -/
def displayName (allStocks : List (String × String)) (code : String) : String :=
  match allStocks.find? (fun p => p.1 == code) with
  | some p => p.2
  | none => code

/-- The stock-level rows of one symbol (`app.py` lines 98–105): daily
`pct_change * 100`, rounded to 2 decimals, `NaN` rows dropped, then
restricted to dates `≥ start_date`. -/
def stockRows (allStocks : List (String × String)) (code : String)
    (startD : Int) (price_df : List (Int × ℚ)) : List StockRow :=
  ((dropna ((pctChange100 price_df).map (fun e => (e.1, e.2.map round2)))).filter
      (fun e => decide (startD ≤ e.1))).map
    (fun e => ⟨e.1, displayName allStocks code ++ " (" ++ code ++ ")", e.2⟩)

/-- The body of the per-symbol loop (`app.py` lines 88–107): fetch the
symbol; on a raised fetch error, an empty price table, or a raised
computation error the symbol contributes nothing (`except: continue`);
otherwise it contributes its period-return series and, when the timeframe
is `'D'`, its stock-level rows. -/
def processCode (fetch : Fetcher) (allStocks : List (String × String))
    (tf : String) (startD effD endD : Int) (code : String) :
    Option (List (Int × Option ℚ)) × List StockRow :=
  match fetch code effD endD with
  | .error _ => (none, [])
  | .ok price_df =>
    if price_df = [] then (none, [])
    else
      match resample_and_calculate_returns price_df tf with
      | .error _ => (none, [])
      | .ok period_return =>
        (some period_return,
         if tf = "D" then stockRows allStocks code startD price_df else [])

/-- The body of the per-theme loop (`app.py` lines 82–111): process every
code; when no symbol contributed a series the theme is dropped (`none`),
otherwise its average return series is computed; the stock-level rows of
all symbols are accumulated in order. -/
def processTheme (fetch : Fetcher) (allStocks : List (String × String))
    (tf : String) (startD effD endD : Int) (t : Theme) :
    Option (String × List (Int × ℚ)) × List StockRow :=
  (if (t.codes.map (processCode fetch allStocks tf startD effD endD)).filterMap
        Prod.fst = [] then none
   else some (t.name, themeAvg
     ((t.codes.map (processCode fetch allStocks tf startD effD endD)).filterMap
       Prod.fst)),
   ((t.codes.map (processCode fetch allStocks tf startD effD endD)).map
     Prod.snd).flatten)

/-- `themed_returns_data[theme_name] = ...` (`app.py` line 111): Python
dict insertion — an existing key keeps its position and is overwritten, a
new key is appended. -/
def upsert {α : Type} (k : String) (v : α) :
    List (String × α) → List (String × α)
  | [] => [(k, v)]
  | p :: rest => if p.1 = k then (k, v) :: rest else p :: upsert k v rest

/-- One iteration of the theme loop acting on the accumulated
`(themed_returns_data, stock_level_returns)` state. -/
def stepTheme (fetch : Fetcher) (allStocks : List (String × String))
    (tf : String) (startD effD endD : Int)
    (acc : List (String × List (Int × ℚ)) × List StockRow) (t : Theme) :
    List (String × List (Int × ℚ)) × List StockRow :=
  (match (processTheme fetch allStocks tf startD effD endD t).1 with
   | some (n, s) => upsert n s acc.1
   | none => acc.1,
   acc.2 ++ (processTheme fetch allStocks tf startD effD endD t).2)

/-- The accumulated `(themed_returns_data, stock_level_returns)` after the
whole theme loop (`app.py` lines 79–111), starting from empty state. -/
def themedData (fetch : Fetcher) (allStocks : List (String × String))
    (tf : String) (startD endD : Int) (th : List Theme) :
    List (String × List (Int × ℚ)) × List StockRow :=
  th.foldl (stepTheme fetch allStocks tf startD (startD - 7) endD) ([], [])

/-- The success payload (`app.py` lines 116–136): themed rows truncated to
`startDate` and rounded, the accumulated stock rows, and the correlation
matrix of the truncated joint table. -/
def buildResponse (startD : Int)
    (acc : List (String × List (Int × ℚ)) × List StockRow) : Response :=
  { themed_returns := (acc.1.map (fun p =>
      (p.2.filter (fun q => decide (startD ≤ q.1))).map
        (fun q => ThemedRow.mk q.1 p.1 (round2 q.2)))).flatten,
    stock_level_returns := acc.2,
    correlation_matrix := corrMatrix (acc.1.map (fun p =>
      (p.1, p.2.filter (fun q => decide (startD ≤ q.1))))) }

/-- The `/api/stock-data` handler `get_stock_data` (`app.py` lines 65–138):
validate (`not all([start_date, end_date]) or not themes` → 400); compute
`effective_start_date = start_date - 7 days`; run the theme loop; if no
theme produced data → 500; otherwise build the truncated joint table
(`correlation_df.loc[start_date:]`), its correlation matrix, and the
truncated, rounded themed rows. -/
def get_stock_data (fetch : Fetcher) (allStocks : List (String × String))
    (req : Request) : Except ApiError Response :=
  match req.startDate, req.endDate with
  | some startD, some endD =>
    if req.themes = [] then .error .missingParams
    else if (themedData fetch allStocks (req.timeframe.getD "D") startD endD
        req.themes).1 = [] then .error .cannotCompute
    else .ok (buildResponse startD
      (themedData fetch allStocks (req.timeframe.getD "D") startD endD req.themes))
  | _, _ => .error .missingParams

/-- Removal of one symbol code from every theme of a request (used to
state that a failing symbol contributes nothing). -/
def removeCode (c : String) (req : Request) : Request :=
  { themes := req.themes.map
      (fun t => { name := t.name, codes := t.codes.filter (fun x => decide (x ≠ c)) }),
    startDate := req.startDate, endDate := req.endDate, timeframe := req.timeframe }

/-! ## Basic lemmas about the return calculator -/

@[simp] lemma dropna_nil : dropna [] = [] := rfl

@[simp] lemma dropna_cons_some (d : Int) (v : ℚ) (t : List (Int × Option ℚ)) :
    dropna ((d, some v) :: t) = (d, v) :: dropna t := rfl

@[simp] lemma dropna_cons_none (d : Int) (t : List (Int × Option ℚ)) :
    dropna ((d, none) :: t) = dropna t := rfl

/-- Every `pct_change` entry after the first has a defined value, so
`dropna` keeps every one of them. -/
lemma length_dropna_pctChange100Go (prev : ℚ) (l : List (Int × ℚ)) :
    (dropna (pctChange100Go prev l)).length = l.length := by
  induction l generalizing prev with
  | nil => rfl
  | cons a rest ih =>
    obtain ⟨d, v⟩ := a
    simp [pctChange100Go, ih]

/-- C1: for close prices `[100, 110, 99]` on consecutive days and timeframe
`'D'`, the return series, after 2-decimal presentation rounding, is exactly
`[10.00, -10.00]` percent — `(close[t] − close[t−1]) / close[t−1] × 100`
with the undefined first entry dropped. -/
theorem c1_daily_example_returns :
    (resample_and_calculate_returns [(0, 100), (1, 110), (2, 99)] "D").map
        (fun r => (dropna r).map (fun p => (p.1, round2 p.2))) =
      .ok [(1, 10), (2, -10)] := by
  with_unfolding_all rfl

/-- C2: on every non-empty daily price series (with positive close prices,
the domain of market data — exact division in `ℚ` does not model the
float `NaN` that `0/0` would produce) the `'D'` return series has exactly
`L − 1` defined entries: only the first observation is dropped. -/
theorem c2_daily_length (p : List (Int × ℚ)) (hne : p ≠ [])
    (_hpos : ∀ e ∈ p, 0 < e.2) :
    ∃ r, resample_and_calculate_returns p "D" = .ok r ∧
      (dropna r).length = p.length - 1 := by
  refine ⟨pctChange100 p, by simp [resample_and_calculate_returns], ?_⟩
  match p, hne with
  | (d, v) :: rest, _ =>
    simp [pctChange100, length_dropna_pctChange100Go]

/-- Witness for C2 at the concrete series `[(0, 100), (1, 110)]`. -/
theorem c2_daily_length_witness :
    ∃ r, resample_and_calculate_returns [(0, 100), (1, 110)] "D" = .ok r ∧
      (dropna r).length = ([(0, (100 : ℚ)), (1, 110)] : List (Int × ℚ)).length - 1 :=
  c2_daily_length [(0, 100), (1, 110)] (by decide)
    (by decide)

/-- C7: a price series with fewer than 2 observations yields a return
series with no defined value (an empty `ReturnSeries`) for each of the
three supported timeframes, and no error is raised. -/
theorem c7_short_series_empty (p : List (Int × ℚ)) (tf : String)
    (hlen : p.length ≤ 1) (htf : tf = "D" ∨ tf = "W" ∨ tf = "M") :
    ∃ r, resample_and_calculate_returns p tf = .ok r ∧ dropna r = [] := by
  rcases p with _ | ⟨⟨d, v⟩, _ | ⟨b, t⟩⟩
  · rcases htf with rfl | rfl | rfl <;>
      exact ⟨_, rfl, rfl⟩
  · rcases htf with rfl | rfl | rfl <;>
      exact ⟨_, rfl, rfl⟩
  · simp at hlen

/-- Witness for C7 at the concrete series `[(0, 100)]` with timeframe `'W'`. -/
theorem c7_short_series_empty_witness :
    ∃ r, resample_and_calculate_returns [(0, 100)] "W" = .ok r ∧ dropna r = [] :=
  c7_short_series_empty [(0, 100)] "W" (by decide) (Or.inr (Or.inl rfl))

/-! ## The theme average -/

/-- C4: every row `(d, v)` of a theme's average series carries the
arithmetic mean of exactly the member values present on date `d`
(members with no value on `d` are excluded from the mean, not zero), and
such a row only exists when at least one member has a value on `d`. -/
theorem c4_theme_mean_present_only (ls : List (List (Int × Option ℚ)))
    (d : Int) (v : ℚ) (h : (d, v) ∈ themeAvg ls) :
    valuesAt ls d ≠ [] ∧ v = listMean (valuesAt ls d) := by
  unfold themeAvg at h
  rw [List.mem_filterMap] at h
  obtain ⟨d', _, hsome⟩ := h
  by_cases hvs : valuesAt ls d' = []
  · simp [hvs] at hsome
  · simp only [hvs, if_neg, if_false] at hsome
    rw [Option.some_inj, Prod.mk.injEq] at hsome
    obtain ⟨rfl, rfl⟩ := hsome
    exact ⟨hvs, rfl⟩

/-- Witness for C4 on the claim's own instance: theme `{A, B}` where `A`
has `10` on day `0` and `B` has no value there — the average on day `0`
is `10` (the mean of the one present value), not `5`. -/
theorem c4_theme_mean_present_only_witness :
    (0, (10 : ℚ)) ∈ themeAvg [[(0, some 10), (1, some 4)], [(1, some 6)]] ∧
      (valuesAt [[(0, some 10), (1, some 4)], [(1, some 6)]] 0 ≠ [] ∧
       (10 : ℚ) = listMean (valuesAt [[(0, some 10), (1, some 4)], [(1, some 6)]] 0)) :=
  ⟨of_decide_eq_true (by with_unfolding_all rfl),
   c4_theme_mean_present_only [[(0, some 10), (1, some 4)], [(1, some 6)]] 0 10
     (of_decide_eq_true (by with_unfolding_all rfl))⟩

/-! ## Request validation -/

/-- C9: a request with an empty `themes` list, or a missing `startDate`,
or a missing `endDate`, is answered with the 400 error before any fetch —
the result is this error for every price fetcher, so no fetch influences
(or is needed for) the response. -/
theorem c9_validation_rejects (f : Fetcher) (allStocks : List (String × String))
    (req : Request)
    (h : req.themes = [] ∨ req.startDate = none ∨ req.endDate = none) :
    get_stock_data f allStocks req = .error .missingParams := by
  obtain ⟨th, sd, ed, tfO⟩ := req
  rcases h with h | h | h <;> simp only at h
  · subst h
    cases sd <;> cases ed <;> simp [get_stock_data]
  · subst h
    simp [get_stock_data]
  · subst h
    cases sd <;> simp [get_stock_data]

/-- Witness for C9: the empty-themes request is rejected. -/
theorem c9_validation_rejects_witness :
    get_stock_data (fun _ _ _ => .error ()) [] ⟨[], some 0, some 1, none⟩ =
      .error .missingParams :=
  c9_validation_rejects (fun _ _ _ => .error ()) [] ⟨[], some 0, some 1, none⟩
    (Or.inl rfl)

/-! ## The joint date index is strictly sorted -/

lemma mem_insertDate {b d : Int} {l : List Int} (h : b ∈ insertDate d l) :
    b = d ∨ b ∈ l := by
  induction l with
  | nil =>
    rw [insertDate, List.mem_singleton] at h
    exact Or.inl h
  | cons x xs ih =>
    rw [insertDate] at h
    by_cases h1 : d < x
    · rw [if_pos h1] at h
      rcases List.mem_cons.mp h with rfl | h
      · exact Or.inl rfl
      · exact Or.inr h
    · rw [if_neg h1] at h
      by_cases h2 : d = x
      · rw [if_pos h2] at h
        exact Or.inr h
      · rw [if_neg h2] at h
        rcases List.mem_cons.mp h with rfl | h
        · exact Or.inr (List.mem_cons_self _ _)
        · rcases ih h with rfl | h
          · exact Or.inl rfl
          · exact Or.inr (List.mem_cons_of_mem _ h)

lemma insertDate_sorted (d : Int) (l : List Int) (h : l.Sorted (· < ·)) :
    (insertDate d l).Sorted (· < ·) := by
  induction l with
  | nil => simp [insertDate]
  | cons x xs ih =>
    rw [List.sorted_cons] at h
    obtain ⟨hx, hxs⟩ := h
    rw [insertDate]
    by_cases h1 : d < x
    · rw [if_pos h1, List.sorted_cons]
      refine ⟨?_, List.sorted_cons.mpr ⟨hx, hxs⟩⟩
      intro b hb
      rcases List.mem_cons.mp hb with rfl | hb
      · exact h1
      · exact lt_trans h1 (hx b hb)
    · rw [if_neg h1]
      by_cases h2 : d = x
      · rw [if_pos h2]
        exact List.sorted_cons.mpr ⟨hx, hxs⟩
      · rw [if_neg h2, List.sorted_cons]
        refine ⟨?_, ih hxs⟩
        intro b hb
        rcases mem_insertDate hb with rfl | hb
        · exact lt_of_le_of_ne (not_lt.mp h1) (Ne.symm h2)
        · exact hx b hb

lemma foldl_insertDate_sorted (s : List (Int × Option ℚ)) (acc : List Int)
    (h : acc.Sorted (· < ·)) :
    (s.foldl (fun a e => insertDate e.1 a) acc).Sorted (· < ·) := by
  induction s generalizing acc with
  | nil => exact h
  | cons e t ih => exact ih _ (insertDate_sorted _ _ h)

lemma datesUnion_sorted (ls : List (List (Int × Option ℚ))) :
    (datesUnion ls).Sorted (· < ·) := by
  unfold datesUnion
  have : ∀ (l : List (List (Int × Option ℚ))) (acc : List Int),
      acc.Sorted (· < ·) →
      (l.foldl (fun acc s => s.foldl (fun a e => insertDate e.1 a) acc) acc).Sorted
        (· < ·) := by
    intro l
    induction l with
    | nil => exact fun acc h => h
    | cons s t ih => exact fun acc h => ih _ (foldl_insertDate_sorted s acc h)
  exact this ls [] List.sorted_nil

lemma datesUnion_nodup (ls : List (List (Int × Option ℚ))) :
    (datesUnion ls).Nodup :=
  (datesUnion_sorted ls).nodup

/-- The date column of a theme-average series is a sub-index of the joint
index, hence duplicate-free. -/
lemma themeAvg_map_fst_sublist (ls : List (List (Int × Option ℚ))) :
    ((themeAvg ls).map Prod.fst).Sublist (datesUnion ls) := by
  unfold themeAvg
  generalize datesUnion ls = du
  induction du with
  | nil => simp
  | cons d t ih =>
    rw [List.filterMap_cons]
    by_cases h : valuesAt ls d = []
    · rw [if_pos h]
      exact ih.cons _
    · rw [if_neg h]
      rw [List.map_cons]
      exact ih.cons₂ _

lemma themeAvg_dates_nodup (ls : List (List (Int × Option ℚ))) :
    ((themeAvg ls).map Prod.fst).Nodup :=
  (themeAvg_map_fst_sublist ls).nodup (datesUnion_nodup ls)

/-! ## Cauchy–Schwarz for list sums -/

lemma two_mul_sum_le (a : ℚ) (l : List ℚ) :
    2 * a * l.sum ≤ (l.length : ℚ) * (a * a) + (l.map (fun x => x * x)).sum := by
  induction l with
  | nil => simp
  | cons b t ih =>
    simp only [List.sum_cons, List.map_cons, List.length_cons]
    push_cast
    nlinarith [sq_nonneg (a - b), ih]

/-- `(Σx)² ≤ n·Σx²`: the radicand factors of pandas `nancorr` are
nonnegative. -/
lemma list_sq_sum_le (l : List ℚ) :
    l.sum * l.sum ≤ (l.length : ℚ) * (l.map (fun x => x * x)).sum := by
  induction l with
  | nil => simp
  | cons a t ih =>
    simp only [List.sum_cons, List.map_cons, List.length_cons]
    push_cast
    nlinarith [two_mul_sum_le a t, ih]

/-! ## Correlation-entry lemmas -/

lemma lookupQ_isSome_iff (s : List (Int × ℚ)) (d : Int) :
    (lookupQ s d).isSome = true ↔ d ∈ s.map Prod.fst := by
  unfold lookupQ
  rw [Option.isSome_map']
  rw [List.find?_isSome]
  constructor
  · rintro ⟨e, he, hd⟩
    rw [beq_iff_eq] at hd
    exact hd ▸ List.mem_map_of_mem Prod.fst he
  · intro hd
    obtain ⟨e, he, rfl⟩ := List.mem_map.mp hd
    exact ⟨e, he, beq_self_eq_true _⟩

lemma mem_commonDates (xs ys : List (Int × ℚ)) (d : Int) :
    d ∈ commonDates xs ys ↔ d ∈ xs.map Prod.fst ∧ d ∈ ys.map Prod.fst := by
  unfold commonDates
  rw [List.mem_filter, lookupQ_isSome_iff]

lemma commonDates_nodup (xs ys : List (Int × ℚ))
    (hx : (xs.map Prod.fst).Nodup) : (commonDates xs ys).Nodup :=
  hx.filter _

lemma commonDates_perm (xs ys : List (Int × ℚ))
    (hx : (xs.map Prod.fst).Nodup) (hy : (ys.map Prod.fst).Nodup) :
    List.Perm (commonDates xs ys) (commonDates ys xs) := by
  rw [List.perm_ext_iff_of_nodup (commonDates_nodup xs ys hx)
    (commonDates_nodup ys xs hy)]
  intro d
  rw [mem_commonDates, mem_commonDates, and_comm]

lemma statSum_perm (f : ℚ → ℚ → ℚ) (xs ys : List (Int × ℚ))
    {ds ds' : List Int} (h : List.Perm ds ds') :
    statSum f xs ys ds = statSum f xs ys ds' :=
  (h.map _).sum_eq

/-- Reading the columns in swapped order swaps the arguments of the
summed function. -/
lemma statSum_swap (f : ℚ → ℚ → ℚ) (xs ys : List (Int × ℚ)) (ds : List Int) :
    statSum f ys xs ds = statSum (fun a b => f b a) xs ys ds := rfl

lemma dxTerm_perm (xs ys : List (Int × ℚ)) {ds ds' : List Int}
    (h : List.Perm ds ds') :
    dxTerm xs ys ds = dxTerm xs ys ds' := by
  unfold dxTerm
  rw [statSum_perm _ _ _ h, statSum_perm _ _ _ h, h.length_eq]

lemma dyTerm_perm (xs ys : List (Int × ℚ)) {ds ds' : List Int}
    (h : List.Perm ds ds') :
    dyTerm xs ys ds = dyTerm xs ys ds' := by
  unfold dyTerm
  rw [statSum_perm _ _ _ h, statSum_perm _ _ _ h, h.length_eq]

lemma covTerm_perm (xs ys : List (Int × ℚ)) {ds ds' : List Int}
    (h : List.Perm ds ds') :
    covTerm xs ys ds = covTerm xs ys ds' := by
  unfold covTerm
  rw [statSum_perm _ _ _ h, statSum_perm _ _ _ h, statSum_perm _ _ _ h, h.length_eq]

lemma dxTerm_swap (xs ys : List (Int × ℚ)) (ds : List Int) :
    dxTerm ys xs ds = dyTerm xs ys ds := rfl

lemma dyTerm_swap (xs ys : List (Int × ℚ)) (ds : List Int) :
    dyTerm ys xs ds = dxTerm xs ys ds := rfl

lemma covTerm_swap (xs ys : List (Int × ℚ)) (ds : List Int) :
    covTerm ys xs ds = covTerm xs ys ds := by
  unfold covTerm
  have h1 : statSum (fun x y => x * y) ys xs ds
      = statSum (fun x y => x * y) xs ys ds := by
    unfold statSum
    congr 1
    apply List.map_congr_left
    intro d _
    exact mul_comm _ _
  have h2 : statSum (fun x _ => x) ys xs ds
      = statSum (fun _ y => y) xs ys ds := rfl
  have h3 : statSum (fun _ y => y) ys xs ds
      = statSum (fun x _ => x) xs ys ds := rfl
  rw [h1, h2, h3, mul_comm (statSum (fun _ y => y) xs ys ds)]

/-- The pandas correlation entry is symmetric in its two columns
(provided each column has a duplicate-free date index, as the columns of
the joint table do). -/
lemma corrRaw_comm (xs ys : List (Int × ℚ))
    (hx : (xs.map Prod.fst).Nodup) (hy : (ys.map Prod.fst).Nodup) :
    corrRaw ys xs = corrRaw xs ys := by
  have hperm : List.Perm (commonDates ys xs) (commonDates xs ys) :=
    (commonDates_perm xs ys hx hy).symm
  have hdx : dxTerm ys xs (commonDates ys xs) = dyTerm xs ys (commonDates xs ys) := by
    rw [dxTerm_perm ys xs hperm]
    exact dxTerm_swap xs ys _
  have hdy : dyTerm ys xs (commonDates ys xs) = dxTerm xs ys (commonDates xs ys) := by
    rw [dyTerm_perm ys xs hperm]
    exact dyTerm_swap xs ys _
  have hcov : covTerm ys xs (commonDates ys xs) = covTerm xs ys (commonDates xs ys) := by
    rw [covTerm_perm ys xs hperm]
    exact covTerm_swap xs ys _
  unfold corrRaw
  by_cases h0 : commonDates xs ys = []
  · have h0x : commonDates ys xs = [] := by
      rw [h0] at hperm
      exact hperm.eq_nil
    rw [if_pos h0, if_pos h0x]
  · have h0x : commonDates ys xs ≠ [] := by
      intro h
      rw [h] at hperm
      exact h0 hperm.symm.eq_nil
    rw [if_neg h0x, if_neg h0, hdx, hdy, hcov,
      mul_comm (dyTerm xs ys (commonDates xs ys)) (dxTerm xs ys (commonDates xs ys))]

/-- The radicand factor of a column with itself is nonnegative
(Cauchy–Schwarz). -/
lemma dxTerm_nonneg (xs ys : List (Int × ℚ)) (ds : List Int) :
    0 ≤ dxTerm xs ys ds := by
  unfold dxTerm statSum
  have h := list_sq_sum_le (ds.map (fun d => (lookupQ xs d).getD 0))
  rw [List.length_map, List.map_map] at h
  have hc : ((fun x => x * x) ∘ fun d => (lookupQ xs d).getD 0)
      = fun d => (lookupQ xs d).getD 0 * (lookupQ xs d).getD 0 := rfl
  rw [hc] at h
  linarith [h]

/-- A diagonal entry of the correlation matrix is `NaN` or of the exact
shape `(c, c²)` with `c > 0`; its float value is then `c / sqrt (c²) = 1`. -/
lemma corrRaw_self (xs : List (Int × ℚ)) :
    corrRaw xs xs = none ∨ ∃ c : ℚ, 0 < c ∧ corrRaw xs xs = some (c, c * c) := by
  unfold corrRaw
  by_cases h0 : commonDates xs xs = []
  · exact Or.inl (by rw [if_pos h0])
  · have hdy : dyTerm xs xs (commonDates xs xs)
        = dxTerm xs xs (commonDates xs xs) := rfl
    have hcov : covTerm xs xs (commonDates xs xs)
        = dxTerm xs xs (commonDates xs xs) := rfl
    rw [if_neg h0, hdy, hcov]
    by_cases hz : dxTerm xs xs (commonDates xs xs)
        * dxTerm xs xs (commonDates xs xs) = 0
    · exact Or.inl (by rw [if_pos hz])
    · right
      refine ⟨dxTerm xs xs (commonDates xs xs), ?_, by rw [if_neg hz]⟩
      have hne : dxTerm xs xs (commonDates xs xs) ≠ 0 := by
        intro h
        exact hz (by rw [h, mul_zero])
      exact lt_of_le_of_ne (dxTerm_nonneg xs xs _) (Ne.symm hne)

/-- `c / sqrt (c²) = 1` for `c > 0`: a non-`NaN` diagonal entry is `1.0`. -/
lemma corrVal_self_one (c : ℚ) (hc : 0 < c) : corrVal (some (c, c * c)) = some 1 := by
  simp only [corrVal]
  have hcR : (0 : ℝ) < (c : ℝ) := by exact_mod_cast hc
  rw [Rat.cast_mul, Real.sqrt_mul_self hcR.le, div_self hcR.ne']

/-! ## The correlation matrix as a nested dictionary -/

lemma find?_keyed {β γ : Type} (F : β → γ) (key : β → String) (a : String) :
    ∀ l : List β,
      (l.map (fun p => (key p, F p))).find? (fun q => q.1 == a)
        = (l.find? (fun p => key p == a)).map (fun p => (key p, F p))
  | [] => rfl
  | p :: t => by
    by_cases h : (key p == a) = true
    · simp [List.find?_cons, h]
    · simp [List.find?_cons, h, find?_keyed F key a t]

/-- `matrix[a][b]` of the built correlation dictionary is the Pearson
entry of the first column named `a` against the first column named `b`. -/
lemma mlookup_corrMatrix (cols : List (String × List (Int × ℚ))) (a b : String) :
    mlookup (corrMatrix cols) a b =
      (cols.find? (fun p => p.1 == a)).bind (fun p =>
        (cols.find? (fun q => q.1 == b)).map (fun q => corrRaw p.2 q.2)) := by
  unfold mlookup corrMatrix
  rw [find?_keyed (fun p => cols.map (fun q => (q.1, corrRaw p.2 q.2))) Prod.fst a cols]
  rcases hfa : cols.find? (fun p => p.1 == a) with _ | p
  · rw [hfa]
    rfl
  · rw [hfa]
    simp only [Option.map_some', Option.some_bind]
    rw [find?_keyed (fun q => corrRaw p.2 q.2) Prod.fst b cols, Option.map_map]
    rfl

/-- The correlation dictionary is symmetric, provided every column has a
duplicate-free date index. -/
lemma corrMatrix_symm (cols : List (String × List (Int × ℚ)))
    (hnd : ∀ p ∈ cols, (p.2.map Prod.fst).Nodup) (a b : String) :
    mlookup (corrMatrix cols) a b = mlookup (corrMatrix cols) b a := by
  rw [mlookup_corrMatrix, mlookup_corrMatrix]
  rcases hfa : cols.find? (fun p => p.1 == a) with _ | p
  · rcases hfb : cols.find? (fun q => q.1 == b) with _ | q
    · rw [hfa, hfb]
    · rw [hfa, hfb]
      simp
  · rcases hfb : cols.find? (fun q => q.1 == b) with _ | q
    · rw [hfa, hfb]
      simp
    · rw [hfa, hfb]
      simp only [Option.some_bind, Option.map_some']
      rw [(corrRaw_comm p.2 q.2 (hnd p (List.mem_of_find?_eq_some hfa))
        (hnd q (List.mem_of_find?_eq_some hfb))).symm]

/-- Every diagonal cell of the correlation dictionary is `NaN` or the
exact shape `(c, c²)`, `c > 0`. -/
lemma corrMatrix_diag (cols : List (String × List (Int × ℚ))) (a : String)
    (raw : Option (ℚ × ℚ)) (h : mlookup (corrMatrix cols) a a = some raw) :
    raw = none ∨ ∃ c : ℚ, 0 < c ∧ raw = some (c, c * c) := by
  rw [mlookup_corrMatrix] at h
  rcases hfa : cols.find? (fun p => p.1 == a) with _ | p
  · rw [hfa] at h
    simp at h
  · rw [hfa] at h
    simp only [Option.map_some', Option.some_bind, Option.some_inj] at h
    rcases corrRaw_self p.2 with h1 | ⟨c, hc, h1⟩
    · exact Or.inl (by rw [← h, h1])
    · exact Or.inr ⟨c, hc, by rw [← h, h1]⟩

/-! ## Handler-level facts -/

/-- A successful handler run is exactly the built payload of the theme
loop's accumulated state. -/
lemma get_stock_data_ok (f : Fetcher) (allStocks : List (String × String))
    (th : List Theme) (s e : Int) (tfO : Option String) (resp : Response)
    (hok : get_stock_data f allStocks ⟨th, some s, some e, tfO⟩ = .ok resp) :
    resp = buildResponse s (themedData f allStocks (tfO.getD "D") s e th) := by
  simp only [get_stock_data] at hok
  by_cases hth : th = []
  · rw [if_pos hth] at hok
    cases hok
  · rw [if_neg hth] at hok
    by_cases hacc : (themedData f allStocks (tfO.getD "D") s e th).1 = []
    · rw [if_pos hacc] at hok
      cases hok
    · rw [if_neg hacc] at hok
      injection hok with h
      exact h.symm

/-- `processCode` consults the fetcher only at `fetch code effD endD`. -/
lemma processCode_congr (f g : Fetcher) (allStocks : List (String × String))
    (tf : String) (s eD endD : Int) (h : ∀ c, f c eD endD = g c eD endD)
    (code : String) :
    processCode f allStocks tf s eD endD code
      = processCode g allStocks tf s eD endD code := by
  unfold processCode
  rw [h code]

lemma processTheme_congr (f g : Fetcher) (allStocks : List (String × String))
    (tf : String) (s eD endD : Int) (h : ∀ c, f c eD endD = g c eD endD)
    (t : Theme) :
    processTheme f allStocks tf s eD endD t
      = processTheme g allStocks tf s eD endD t := by
  unfold processTheme
  rw [List.map_congr_left
    (fun c _ => processCode_congr f g allStocks tf s eD endD h c)]

/-- The whole theme loop consults the fetcher only at ranges
`(effectiveStart, end) = (startDate − 7, endDate)`. -/
lemma themedData_congr (f g : Fetcher) (allStocks : List (String × String))
    (tf : String) (s e : Int) (h : ∀ c, f c (s - 7) e = g c (s - 7) e)
    (th : List Theme) :
    themedData f allStocks tf s e th = themedData g allStocks tf s e th := by
  unfold themedData
  have hstep : stepTheme f allStocks tf s (s - 7) e
      = stepTheme g allStocks tf s (s - 7) e := by
    funext acc t
    unfold stepTheme
    rw [processTheme_congr f g allStocks tf s (s - 7) e h t]
  rw [hstep]

/-- C3: the handler fetches exactly over the warm-up-buffered range — two
price sources that agree on every call with range start `startDate − 7`
(and range end `endDate`) produce identical responses — and every date of
the `themed_returns` output is `≥ startDate` (the warm-up window is
trimmed). -/
theorem c3_effective_start_and_trim (f g : Fetcher)
    (allStocks : List (String × String)) (req : Request) (s e : Int)
    (hs : req.startDate = some s) (he : req.endDate = some e)
    (hagree : ∀ c, f c (s - 7) e = g c (s - 7) e) :
    get_stock_data f allStocks req = get_stock_data g allStocks req ∧
    (∀ resp, get_stock_data f allStocks req = .ok resp →
      ∀ row ∈ resp.themed_returns, s ≤ row.date) := by
  obtain ⟨th, sd, ed, tfO⟩ := req
  simp only at hs he
  subst hs
  subst he
  constructor
  · simp only [get_stock_data]
    rw [themedData_congr f g allStocks (tfO.getD "D") s e hagree th]
  · intro resp hok row hrow
    have hshape := get_stock_data_ok f allStocks th s e tfO resp hok
    subst hshape
    simp only [buildResponse] at hrow
    rw [List.mem_flatten] at hrow
    obtain ⟨inner, hin, hrowin⟩ := hrow
    rw [List.mem_map] at hin
    obtain ⟨p, hp, rfl⟩ := hin
    rw [List.mem_map] at hrowin
    obtain ⟨q, hq, rfl⟩ := hrowin
    rw [List.mem_filter] at hq
    exact of_decide_eq_true hq.2

/-- Witness for C3 at a concrete fetcher and request. -/
theorem c3_effective_start_and_trim_witness :
    get_stock_data (fun _ _ _ => .ok [(3, 100), (4, 110)]) []
        ⟨[⟨"T1", ["X"]⟩], some 10, some 20, some "D"⟩
      = get_stock_data (fun _ _ _ => .ok [(3, 100), (4, 110)]) []
        ⟨[⟨"T1", ["X"]⟩], some 10, some 20, some "D"⟩ ∧
    (∀ resp, get_stock_data (fun _ _ _ => .ok [(3, 100), (4, 110)]) []
        ⟨[⟨"T1", ["X"]⟩], some 10, some 20, some "D"⟩ = .ok resp →
      ∀ row ∈ resp.themed_returns, (10 : Int) ≤ row.date) :=
  c3_effective_start_and_trim (fun _ _ _ => .ok [(3, 100), (4, 110)])
    (fun _ _ _ => .ok [(3, 100), (4, 110)]) []
    ⟨[⟨"T1", ["X"]⟩], some 10, some 20, some "D"⟩ 10 20 rfl rfl (fun _ => rfl)

/-! ## A failing symbol contributes nothing (C8) -/

/-- Folding with two step functions that agree on every element of the
list gives the same result. -/
lemma foldl_congr_mem {α β : Type} (g1 g2 : α → β → α) (l : List β)
    (h : ∀ b ∈ l, ∀ a, g1 a b = g2 a b) :
    ∀ acc, l.foldl g1 acc = l.foldl g2 acc := by
  induction l with
  | nil => exact fun _ => rfl
  | cons x t ih =>
    intro acc
    rw [List.foldl_cons, List.foldl_cons, h x (List.mem_cons_self _ _) acc]
    exact ih (fun b hb a => h b (List.mem_cons_of_mem _ hb) a) _

/-- Filtering a code whose processing yields no contribution out of a
theme changes neither the accumulated return-series list nor the
stock-level rows. -/
lemma processTheme_removeCode (f : Fetcher) (allStocks : List (String × String))
    (tf : String) (s eD endD : Int) (c : String)
    (hpc : processCode f allStocks tf s eD endD c = (none, [])) (t : Theme) :
    processTheme f allStocks tf s eD endD
        ⟨t.name, t.codes.filter (fun x => decide (x ≠ c))⟩
      = processTheme f allStocks tf s eD endD t := by
  have key : ∀ codes : List String,
      ((codes.filter (fun x => decide (x ≠ c))).map
          (processCode f allStocks tf s eD endD)).filterMap Prod.fst
        = (codes.map (processCode f allStocks tf s eD endD)).filterMap Prod.fst ∧
      (((codes.filter (fun x => decide (x ≠ c))).map
          (processCode f allStocks tf s eD endD)).map Prod.snd).flatten
        = ((codes.map (processCode f allStocks tf s eD endD)).map
            Prod.snd).flatten := by
    intro codes
    induction codes with
    | nil => exact ⟨rfl, rfl⟩
    | cons x l ih =>
      by_cases hx : x = c
      · subst hx
        rw [List.filter_cons_of_neg (by simp)]
        constructor
        · rw [List.map_cons, List.filterMap_cons_none (by rw [hpc])]
          exact ih.1
        · rw [List.map_cons, List.map_cons, List.flatten_cons, hpc]
          simpa using ih.2
      · rw [List.filter_cons_of_pos (by simp [hx])]
        constructor
        · rw [List.map_cons, List.map_cons]
          rcases h1 : (processCode f allStocks tf s eD endD x).1 with _ | r
          · rw [List.filterMap_cons_none h1, List.filterMap_cons_none h1]
            exact ih.1
          · rw [List.filterMap_cons_some h1, List.filterMap_cons_some h1, ih.1]
        · rw [List.map_cons, List.map_cons, List.map_cons, List.map_cons,
            List.flatten_cons, List.flatten_cons, ih.2]
  unfold processTheme
  rw [(key t.codes).1, (key t.codes).2]

/-- C8: a symbol whose fetch raises is skipped and contributes nothing:
the handler's response is identical to the response for the same request
with that symbol removed from every theme — the remaining symbols and
themes are still processed, and the failure never aborts the request. -/
theorem c8_failing_symbol_skipped (f : Fetcher)
    (allStocks : List (String × String)) (req : Request) (c : String)
    (s e : Int) (hs : req.startDate = some s) (he : req.endDate = some e)
    (hfail : f c (s - 7) e = .error ()) :
    get_stock_data f allStocks req = get_stock_data f allStocks (removeCode c req) := by
  obtain ⟨th, sd, ed, tfO⟩ := req
  simp only at hs he
  subst hs
  subst he
  have hpc : processCode f allStocks (tfO.getD "D") s (s - 7) e c = (none, []) := by
    unfold processCode
    rw [hfail]
  have hdata : themedData f allStocks (tfO.getD "D") s e
        (th.map (fun t =>
          { name := t.name, codes := t.codes.filter (fun x => decide (x ≠ c)) }))
      = themedData f allStocks (tfO.getD "D") s e th := by
    unfold themedData
    rw [List.foldl_map]
    exact foldl_congr_mem _ _ th
      (fun t _ acc => by
        unfold stepTheme
        rw [processTheme_removeCode f allStocks (tfO.getD "D") s (s - 7) e c hpc t])
      ([], [])
  by_cases hthe : th = []
  · subst hthe
    simp [get_stock_data, removeCode]
  · have hthe2 : th.map (fun t =>
        ({ name := t.name, codes := t.codes.filter (fun x => decide (x ≠ c)) }
          : Theme)) ≠ [] := by
      simpa [List.map_eq_nil_iff] using hthe
    simp only [get_stock_data, removeCode]
    rw [if_neg hthe, if_neg hthe2, hdata]

/-- Witness for C8: a theme `{A, B}` where fetching `B` raises gives the
same response as the request without `B`. -/
theorem c8_failing_symbol_skipped_witness :
    get_stock_data
        (fun c _ _ => if c = "B" then .error () else .ok [(3, 100), (4, 110)]) []
        ⟨[⟨"T1", ["A", "B"]⟩], some 10, some 20, some "D"⟩
      = get_stock_data
        (fun c _ _ => if c = "B" then .error () else .ok [(3, 100), (4, 110)]) []
        (removeCode "B" ⟨[⟨"T1", ["A", "B"]⟩], some 10, some 20, some "D"⟩) :=
  c8_failing_symbol_skipped
    (fun c _ _ => if c = "B" then .error () else .ok [(3, 100), (4, 110)]) []
    ⟨[⟨"T1", ["A", "B"]⟩], some 10, some 20, some "D"⟩ "B" 10 20 rfl rfl rfl

/-! ## Total computation failure (C5, C10) -/

/-- A theme none of whose symbols contributes a series is dropped. -/
lemma processTheme_fst_none (f : Fetcher) (allStocks : List (String × String))
    (tf : String) (s eD endD : Int) (t : Theme)
    (h : ∀ c ∈ t.codes, (processCode f allStocks tf s eD endD c).1 = none) :
    (processTheme f allStocks tf s eD endD t).1 = none := by
  unfold processTheme
  have hnil : (t.codes.map (processCode f allStocks tf s eD endD)).filterMap
      Prod.fst = [] := by
    rw [List.filterMap_eq_nil_iff]
    intro r hr
    obtain ⟨c, hc, rfl⟩ := List.mem_map.mp hr
    exact h c hc
  rw [if_pos hnil]

/-- When every theme is dropped, `themed_returns_data` stays empty. -/
lemma themedData_fst_nil (f : Fetcher) (allStocks : List (String × String))
    (tf : String) (s e : Int) (th : List Theme)
    (h : ∀ t ∈ th, (processTheme f allStocks tf s (s - 7) e t).1 = none) :
    (themedData f allStocks tf s e th).1 = [] := by
  unfold themedData
  suffices hgen : ∀ (l : List Theme)
      (acc : List (String × List (Int × ℚ)) × List StockRow),
      (∀ t ∈ l, (processTheme f allStocks tf s (s - 7) e t).1 = none) →
      (l.foldl (stepTheme f allStocks tf s (s - 7) e) acc).1 = acc.1 by
    exact hgen th ([], []) h
  intro l
  induction l with
  | nil => exact fun _ _ => rfl
  | cons t r ih =>
    intro acc hl
    rw [List.foldl_cons, ih _ (fun u hu => hl u (List.mem_cons_of_mem _ hu))]
    unfold stepTheme
    rw [hl t (List.mem_cons_self _ _)]

/-- C5 (amended): when no symbol of any theme yields price data — every
fetch raises or returns an empty table — `themed_returns_data` is empty
before truncation and the handler answers the 500 error, not a success. -/
theorem c5_amended_no_data_error (f : Fetcher)
    (allStocks : List (String × String)) (req : Request) (s e : Int)
    (hs : req.startDate = some s) (he : req.endDate = some e)
    (hth : req.themes ≠ [])
    (hfail : ∀ t ∈ req.themes, ∀ c ∈ t.codes,
      f c (s - 7) e = .error () ∨ f c (s - 7) e = .ok []) :
    get_stock_data f allStocks req = .error .cannotCompute := by
  obtain ⟨th, sd, ed, tfO⟩ := req
  simp only at hs he hth hfail
  subst hs
  subst he
  have hnone : ∀ t ∈ th,
      (processTheme f allStocks (tfO.getD "D") s (s - 7) e t).1 = none := by
    intro t ht
    apply processTheme_fst_none
    intro c hc
    rcases hfail t ht c hc with h | h
    · unfold processCode
      rw [h]
    · unfold processCode
      rw [h]
      simp
  simp only [get_stock_data]
  rw [if_neg hth,
    if_pos (themedData_fst_nil f allStocks (tfO.getD "D") s e th hnone)]

/-- Witness for the amended C5: every fetch raises. -/
theorem c5_amended_no_data_error_witness :
    get_stock_data (fun _ _ _ => .error ()) []
        ⟨[⟨"T1", ["X"]⟩], some 10, some 20, some "D"⟩
      = .error .cannotCompute :=
  c5_amended_no_data_error (fun _ _ _ => .error ()) []
    ⟨[⟨"T1", ["X"]⟩], some 10, some 20, some "D"⟩ 10 20 rfl rfl
    (by decide) (fun _ _ _ _ => Or.inl rfl)

/-- Counterexample to C5 as stated: the emptiness check of `app.py` line
113 runs *before* the `loc[start_date:]` truncation.  Here the only
symbol has data only inside the warm-up window (days 3–4 < start 10), so
after truncation zero themes have any data — yet the handler returns a
*successful* payload with empty `themed_returns` (and an all-`NaN`
correlation matrix), not an error. -/
theorem c5_counterexample_success_after_truncation :
    get_stock_data (fun _ _ _ => .ok [(3, 100), (4, 110)]) []
        ⟨[⟨"T1", ["X"]⟩], some 10, some 20, some "D"⟩
      = .ok ⟨[], [], [("T1", [("T1", none)])]⟩ := by
  with_unfolding_all rfl

/-- C10: a timeframe other than `'D'`/`'W'`/`'M'` passes request
validation, but `resample_period` is `None`, so the per-symbol
computation raises for every fetched symbol, each symbol is silently
skipped, and the request ends with the 500 total-computation-failure
error — for every fetcher. -/
theorem c10_invalid_timeframe_total_failure (f : Fetcher)
    (allStocks : List (String × String)) (req : Request) (s e : Int)
    (t : String) (hs : req.startDate = some s) (he : req.endDate = some e)
    (hth : req.themes ≠ []) (htf : req.timeframe = some t)
    (hD : t ≠ "D") (hW : t ≠ "W") (hM : t ≠ "M") :
    get_stock_data f allStocks req = .error .cannotCompute := by
  obtain ⟨ths, sd, ed, tfO⟩ := req
  simp only at hs he hth htf
  subst hs
  subst he
  subst htf
  have hnone : ∀ th ∈ ths,
      (processTheme f allStocks ((some t).getD "D") s (s - 7) e th).1 = none := by
    intro th hmem
    apply processTheme_fst_none
    intro c _
    unfold processCode
    cases hf : f c (s - 7) e with
    | error u => rfl
    | ok df =>
      by_cases hdf : df = []
      · simp [hdf]
      · have hre : resample_and_calculate_returns df t = .error () := by
          unfold resample_and_calculate_returns resamplePeriod
          rw [if_neg hD, if_neg hW, if_neg hM]
        simp [hdf, hre]
  simp only [get_stock_data]
  rw [if_neg hth,
    if_pos (themedData_fst_nil f allStocks ((some t).getD "D") s e ths hnone)]

/-- Witness for C10 at the unsupported timeframe `"X"`. -/
theorem c10_invalid_timeframe_total_failure_witness :
    get_stock_data (fun _ _ _ => .ok [(0, 100), (1, 110)]) []
        ⟨[⟨"T1", ["A"]⟩], some 10, some 20, some "X"⟩
      = .error .cannotCompute :=
  c10_invalid_timeframe_total_failure (fun _ _ _ => .ok [(0, 100), (1, 110)]) []
    ⟨[⟨"T1", ["A"]⟩], some 10, some 20, some "X"⟩ 10 20 "X" rfl rfl (by decide)
    rfl (by decide) (by decide) (by decide)

/-! ## The correlation matrix of a successful request (C6) -/

/-- Dict insertion only adds the inserted pair or keeps existing pairs. -/
lemma mem_upsert {α : Type} {k : String} {v : α} {l : List (String × α)}
    {p : String × α} (h : p ∈ upsert k v l) : p = (k, v) ∨ p ∈ l := by
  induction l with
  | nil =>
    rw [upsert, List.mem_singleton] at h
    exact Or.inl h
  | cons q r ih =>
    rw [upsert] at h
    by_cases hq : q.1 = k
    · rw [if_pos hq] at h
      rcases List.mem_cons.mp h with rfl | h
      · exact Or.inl rfl
      · exact Or.inr (List.mem_cons_of_mem _ h)
    · rw [if_neg hq] at h
      rcases List.mem_cons.mp h with rfl | h
      · exact Or.inr (List.mem_cons_self _ _)
      · rcases ih h with h1 | h1
        · exact Or.inl h1
        · exact Or.inr (List.mem_cons_of_mem _ h1)

/-- Every series stored in `themed_returns_data` is a theme-average
series (so in particular its date index is duplicate-free). -/
lemma themedData_fst_shape (f : Fetcher) (allStocks : List (String × String))
    (tf : String) (s e : Int) (th : List Theme) :
    ∀ p ∈ (themedData f allStocks tf s e th).1, ∃ ls, p.2 = themeAvg ls := by
  unfold themedData
  suffices hgen : ∀ (l : List Theme)
      (acc : List (String × List (Int × ℚ)) × List StockRow),
      (∀ p ∈ acc.1, ∃ ls, p.2 = themeAvg ls) →
      ∀ p ∈ (l.foldl (stepTheme f allStocks tf s (s - 7) e) acc).1,
        ∃ ls, p.2 = themeAvg ls by
    exact hgen th ([], []) (by simp)
  intro l
  induction l with
  | nil => exact fun acc h => h
  | cons t r ih =>
    intro acc hacc
    rw [List.foldl_cons]
    apply ih
    unfold stepTheme
    rcases hpt : (processTheme f allStocks tf s (s - 7) e t).1 with _ | ⟨n, ser⟩
    · exact hacc
    · have hser : ∃ ls, ser = themeAvg ls := by
        unfold processTheme at hpt
        by_cases hc : (t.codes.map (processCode f allStocks tf s (s - 7) e)).filterMap
            Prod.fst = []
        · rw [if_pos hc] at hpt
          simp at hpt
        · rw [if_neg hc] at hpt
          simp only at hpt
          injection hpt with h2
          exact ⟨_, (congrArg Prod.snd h2).symm⟩
      intro p hp
      rcases mem_upsert hp with rfl | hp2
      · obtain ⟨ls, hls⟩ := hser
        exact ⟨ls, hls⟩
      · exact hacc p hp2

/-- C6 (amended): for every successful request, the returned correlation
matrix is the pairwise-complete Pearson matrix of some joint table whose
columns are duplicate-free and truncated to dates `≥ startDate`; it is
symmetric; and every diagonal cell is either exactly `1.0` or `NaN` (`NaN`
exactly when the theme's truncated series has zero variance — e.g. a
constant return series — or fewer than 2 observations). -/
theorem c6_amended_corr_matrix (f : Fetcher)
    (allStocks : List (String × String)) (req : Request) (s e : Int)
    (resp : Response) (hs : req.startDate = some s) (he : req.endDate = some e)
    (hok : get_stock_data f allStocks req = .ok resp) :
    (∃ cols, resp.correlation_matrix = corrMatrix cols ∧
       ∀ p ∈ cols, (p.2.map Prod.fst).Nodup ∧ ∀ q ∈ p.2, s ≤ q.1) ∧
    (∀ a b, mlookup resp.correlation_matrix a b
        = mlookup resp.correlation_matrix b a) ∧
    (∀ a raw, mlookup resp.correlation_matrix a a = some raw →
       corrVal raw = none ∨ corrVal raw = some 1) := by
  obtain ⟨th, sd, ed, tfO⟩ := req
  simp only at hs he
  subst hs
  subst he
  have hshape := get_stock_data_ok f allStocks th s e tfO resp hok
  subst hshape
  have hmat : (buildResponse s
        (themedData f allStocks (tfO.getD "D") s e th)).correlation_matrix
      = corrMatrix ((themedData f allStocks (tfO.getD "D") s e th).1.map
          (fun p => (p.1, p.2.filter (fun q => decide (s ≤ q.1))))) := rfl
  have hnd : ∀ p ∈ (themedData f allStocks (tfO.getD "D") s e th).1.map
      (fun p => (p.1, p.2.filter (fun q => decide (s ≤ q.1)))),
      (p.2.map Prod.fst).Nodup ∧ ∀ q ∈ p.2, s ≤ q.1 := by
    intro p hp
    obtain ⟨p0, hp0, rfl⟩ := List.mem_map.mp hp
    obtain ⟨ls, hls⟩ := themedData_fst_shape f allStocks (tfO.getD "D") s e th p0 hp0
    constructor
    · have hsub : ((p0.2.filter (fun q => decide (s ≤ q.1))).map
          Prod.fst).Sublist (p0.2.map Prod.fst) :=
        (List.filter_sublist _).map _
      apply hsub.nodup
      rw [hls]
      exact themeAvg_dates_nodup ls
    · intro q hq
      exact of_decide_eq_true (List.mem_filter.mp hq).2
  refine ⟨⟨_, hmat, hnd⟩, ?_, ?_⟩
  · intro a b
    rw [hmat]
    exact corrMatrix_symm _ (fun p hp => (hnd p hp).1) a b
  · intro a raw h
    rw [hmat] at h
    rcases corrMatrix_diag _ a raw h with h1 | ⟨c, hc, h1⟩
    · left
      rw [h1]
      rfl
    · right
      rw [h1]
      exact corrVal_self_one c hc

/-- Witness for the amended C6: a successful one-theme request with a
non-constant return series and 2 aligned observations. -/
theorem c6_amended_corr_matrix_witness :
    (∃ cols, (Response.mk [⟨8, "T1", 10⟩, ⟨9, "T1", 248/25⟩]
        [⟨8, "X (X)", 10⟩, ⟨9, "X (X)", 248/25⟩]
        [("T1", [("T1", some (100/14641, 10000/214358881))])]).correlation_matrix
          = corrMatrix cols ∧
       ∀ p ∈ cols, (p.2.map Prod.fst).Nodup ∧ ∀ q ∈ p.2, (8 : Int) ≤ q.1) ∧
    (∀ a b, mlookup (Response.mk [⟨8, "T1", 10⟩, ⟨9, "T1", 248/25⟩]
        [⟨8, "X (X)", 10⟩, ⟨9, "X (X)", 248/25⟩]
        [("T1", [("T1", some (100/14641, 10000/214358881))])]).correlation_matrix a b
          = mlookup (Response.mk [⟨8, "T1", 10⟩, ⟨9, "T1", 248/25⟩]
        [⟨8, "X (X)", 10⟩, ⟨9, "X (X)", 248/25⟩]
        [("T1", [("T1", some (100/14641, 10000/214358881))])]).correlation_matrix b a) ∧
    (∀ a raw, mlookup (Response.mk [⟨8, "T1", 10⟩, ⟨9, "T1", 248/25⟩]
        [⟨8, "X (X)", 10⟩, ⟨9, "X (X)", 248/25⟩]
        [("T1", [("T1", some (100/14641, 10000/214358881))])]).correlation_matrix a a
          = some raw →
       corrVal raw = none ∨ corrVal raw = some 1) :=
  c6_amended_corr_matrix
    (fun _ _ _ => .ok [(6, 100), (7, 110), (8, 121), (9, 133)]) []
    ⟨[⟨"T1", ["X"]⟩], some 8, some 9, some "D"⟩ 8 9
    (Response.mk [⟨8, "T1", 10⟩, ⟨9, "T1", 248/25⟩]
      [⟨8, "X (X)", 10⟩, ⟨9, "X (X)", 248/25⟩]
      [("T1", [("T1", some (100/14641, 10000/214358881))])])
    rfl rfl (by with_unfolding_all rfl)

/-- Counterexample to C6 as stated: a successful request whose theme has
2 aligned observations but a constant return series (prices all `100`)
gets a correlation matrix whose diagonal entry is `NaN` (pandas `nancorr`
yields `NaN` for a zero radicand), not `1.0`. -/
theorem c6_counterexample_nan_diagonal :
    get_stock_data (fun _ _ _ => .ok [(6, 100), (7, 100), (8, 100), (9, 100)]) []
        ⟨[⟨"T1", ["X"]⟩], some 8, some 9, some "D"⟩
      = .ok ⟨[⟨8, "T1", 0⟩, ⟨9, "T1", 0⟩],
             [⟨8, "X (X)", 0⟩, ⟨9, "X (X)", 0⟩],
             [("T1", [("T1", none)])]⟩ ∧
    mlookup [("T1", [("T1", none)])] "T1" "T1" = some none ∧
    corrVal none ≠ some (1 : ℝ) :=
  ⟨by with_unfolding_all rfl, by with_unfolding_all rfl, by simp [corrVal]⟩

end StockApp
